import Mathlib

/-!
Verification of the dataset-preparation scripts of the Mixology repository:
the synthetic-background compositor (`transform_data.py`, class
`DatasetSynthesizer`) and the dataset merger (`merge_dataset.py`, class
`DatasetMerger`).

Images are modelled as 8-bit three-channel rasters (channel values are
naturals, valid images keep them below 256).  The OpenCV primitives the
scripts call (`inRange`, `bitwise_and` with a mask argument, `bitwise_not`,
`add`, `resize`) are modelled from their documented 8-bit semantics; the
script code itself is translated line by line.  File-system effects are
modelled explicitly: decoding is an `Option`, a raised Python exception is
an `Except.error`, and `sys.exit(1)` in `_load_backgrounds` is likewise a
fatal `Except.error` produced before any processing starts.
-/

namespace Mixology

/-- A three-channel pixel.  For BGR images the channels are blue, green,
red; after `cv2.cvtColor(..., COLOR_BGR2HSV)` they are hue, saturation,
value.  Channels are naturals; a valid 8-bit pixel has all channels ≤ 255. -/
structure Pix where
  c0 : Nat
  c1 : Nat
  c2 : Nat
deriving DecidableEq, Repr

/-- A three-channel image: height, width, and the pixel at each (row,
column) coordinate.  Only coordinates with `y < h` and `x < w` are
meaningful. -/
structure Image where
  h : Nat
  w : Nat
  pix : Nat → Nat → Pix

/-- A one-channel (grayscale) image, as produced by `cv2.inRange`; used as
the `mask=` argument of `cv2.bitwise_and`. -/
structure Gray where
  h : Nat
  w : Nat
  pix : Nat → Nat → Nat

/-- A pixel is valid when all three 8-bit channels are at most 255. -/
def Pix.Valid (p : Pix) : Prop := p.c0 ≤ 255 ∧ p.c1 ≤ 255 ∧ p.c2 ≤ 255

instance (p : Pix) : Decidable p.Valid := by unfold Pix.Valid; infer_instance

/-- An image is valid when every in-bounds pixel is valid. -/
def Image.Valid (img : Image) : Prop :=
  ∀ y < img.h, ∀ x < img.w, (img.pix y x).Valid

instance (img : Image) : Decidable img.Valid := by
  unfold Image.Valid; infer_instance

/-! ## OpenCV primitives (modelled from their documented 8-bit semantics) -/

/-- `cv2.inRange(img, lo, hi)`: one-channel output, 255 where every channel
of the pixel lies inclusively between the corresponding channels of `lo`
and `hi`, else 0. -/
def inRange (img : Image) (lo hi : Pix) : Gray :=
  ⟨img.h, img.w, fun y x =>
    let p := img.pix y x
    if lo.c0 ≤ p.c0 ∧ p.c0 ≤ hi.c0 ∧ lo.c1 ≤ p.c1 ∧ p.c1 ≤ hi.c1 ∧
        lo.c2 ≤ p.c2 ∧ p.c2 ≤ hi.c2 then 255 else 0⟩

/-- `cv2.bitwise_not` on an 8-bit one-channel image: bitwise complement,
i.e. `255 - v` for `v ≤ 255` (255 is all ones, so xor with 255 is
subtraction from 255). -/
def bitwiseNot (m : Gray) : Gray :=
  ⟨m.h, m.w, fun y x => 255 - m.pix y x⟩

/-- `cv2.bitwise_and(img, img, mask=m)`: the destination is zero-filled and
receives `img AND img = img` exactly at the coordinates where the mask is
non-zero. -/
def bitwiseAndMasked (img : Image) (m : Gray) : Image :=
  ⟨img.h, img.w, fun y x => if m.pix y x = 0 then ⟨0, 0, 0⟩ else img.pix y x⟩

/-- 8-bit saturating addition used by `cv2.add`. -/
def satAdd (a b : Nat) : Nat := min (a + b) 255

/-- Per-channel saturating addition of two pixels. -/
def pixAdd (p q : Pix) : Pix :=
  ⟨satAdd p.c0 q.c0, satAdd p.c1 q.c1, satAdd p.c2 q.c2⟩

/-- `cv2.add(p, q)`: per-channel saturating addition. -/
def cvAdd (p q : Image) : Image :=
  ⟨p.h, p.w, fun y x => pixAdd (p.pix y x) (q.pix y x)⟩

/-- `cv2.resize(img, (w, h))`.  The script relies only on the output
dimensions (the background is stretched to the source image size); the
sampling of the source raster is modelled as nearest-neighbour, standing in
for OpenCV interpolation. -/
def cvResize (img : Image) (w h : Nat) : Image :=
  ⟨h, w, fun y x => img.pix (y * img.h / h) (x * img.w / w)⟩

/-! ## `DatasetSynthesizer.remove_white_bg` (transform_data.py lines 47-58) -/

/-- `lower_white = np.array([0, 0, 210])`. -/
def lower_white : Pix := ⟨0, 0, 210⟩

/-- `upper_white = np.array([180, 40, 255])`. -/
def upper_white : Pix := ⟨180, 40, 255⟩

/-- `cv2.cvtColor(image, cv2.COLOR_BGR2HSV)` applied pixelwise.  The
conversion formula is OpenCV library code, so it is kept abstract as the
pixelwise map `cvt`; for 8-bit inputs its output satisfies hue ≤ 179 and
saturation, value ≤ 255, which the theorems take as hypotheses. -/
def cvtColorBGR2HSV (cvt : Pix → Pix) (img : Image) : Image :=
  ⟨img.h, img.w, fun y x => cvt (img.pix y x)⟩

/-- `remove_white_bg`: convert to HSV, take `cv2.inRange(hsv, lower_white,
upper_white)`, return its `cv2.bitwise_not`. -/
def remove_white_bg (cvt : Pix → Pix) (image : Image) : Gray :=
  bitwiseNot (inRange (cvtColorBGR2HSV cvt image) lower_white upper_white)

/-! ## The per-image compositing steps (transform_data.py lines 96-106) -/

/-- Steps 2 and 4 of `DatasetSynthesizer.process` given the decoded source,
its mask, and the already-resized background:
`bottle_part = cv2.bitwise_and(original, original, mask=mask)`;
`bg_part = cv2.bitwise_and(bg_img, bg_img, mask=cv2.bitwise_not(mask))`;
`final_img = cv2.add(bg_part, bottle_part)`. -/
def composite (original : Image) (mask : Gray) (bg_img : Image) : Image :=
  cvAdd (bitwiseAndMasked bg_img (bitwiseNot mask)) (bitwiseAndMasked original mask)

/-! ## `DatasetSynthesizer._load_backgrounds` (transform_data.py lines 31-45) -/

/-- The background directory as the script observes it: whether
`self.bg_dir.exists()`, and the `cv2.imread` result for each file the
extension globs matched (a file that fails to decode reads as `none`,
since `cv2.imread` returns `None` on failure). -/
structure BgDir where
  dirExists : Bool
  files : List (Option Image)

/-- `_load_backgrounds`: `sys.exit(1)` (a fatal error) when the directory
does not exist or when the glob over the supported extensions matched no
file; otherwise the list of `cv2.imread` results, with no check that any
of them actually decoded. -/
def load_backgrounds (bg : BgDir) : Except String (List (Option Image)) :=
  if bg.dirExists = false then
    Except.error "ERROR: Background folder not found"
  else if bg.files.isEmpty then
    Except.error "ERROR: No images found"
  else
    Except.ok bg.files

/-! ## `DatasetSynthesizer.process` (transform_data.py lines 60-133) -/

/-- One enumerated source image file of a split, together with everything
the environment decides about it during the loop body: the `cv2.imread`
result (`none` when the file is corrupt), the label-file content when
`(lbl_source_dir / (stem + ".txt")).exists()`, the index `random.choice`
picks into the background pool, and whether the `cv2.imwrite` call or the
`shutil.copy` call raises an I/O exception. -/
structure SrcImageFile where
  stem : String
  ext : String
  decoded : Option Image
  label : Option (List Nat)
  bgChoice : Nat
  writeRaises : Bool
  copyRaises : Bool

/-- The source filename (`img_path.name`): stem followed by extension. -/
def srcName (f : SrcImageFile) : String := f.stem ++ f.ext

/-- A file written into the destination split: either the synthesized
image saved by `cv2.imwrite`, or the label file copied by `shutil.copy`
(whose content is the source label bytes, unchanged). -/
inductive Written where
  | image (name : String) (img : Image)
  | labelFile (name : String) (content : List Nat)

/-- The loop body of `process` for one image (transform_data.py lines
91-117).  Returns the files written and the contribution to
`subset_count` (0 when the image was skipped, 1 when it completed);
`Except.error` models an uncaught Python exception, which the loop body
does not handle (there is no try/except around it). -/
def processImage (cvt : Pix → Pix) (pool : List (Option Image))
    (f : SrcImageFile) : Except String (List Written × Nat) :=
  match f.decoded with
  | none => Except.ok ([], 0)
  | some original =>
    let mask := remove_white_bg cvt original
    let bottle_part := bitwiseAndMasked original mask
    match pool[f.bgChoice]? with
    | none => Except.error "IndexError: choice from an empty pool"
    | some none => Except.error "AttributeError: NoneType has no copy"
    | some (some bg0) =>
      let bg_img := cvResize bg0 original.w original.h
      let bg_part := bitwiseAndMasked bg_img (bitwiseNot mask)
      let final_img := cvAdd bg_part bottle_part
      if f.writeRaises then Except.error "imwrite raised" else
      let outImg := Written.image (srcName f) final_img
      match f.label with
      | none => Except.ok ([outImg], 1)
      | some content =>
        if f.copyRaises then Except.error "shutil.copy raised"
        else Except.ok ([outImg, Written.labelFile (f.stem ++ ".txt") content], 1)

/-- The per-split loop `for img_path in tqdm(images)` : runs the loop body
on each enumerated file in order, accumulating the written files and
`subset_count`; an exception raised by any iteration propagates (nothing
in the loop catches it). -/
def processSplit (cvt : Pix → Pix) (pool : List (Option Image)) :
    List SrcImageFile → Except String (List Written × Nat)
  | [] => Except.ok ([], 0)
  | f :: rest => do
    let (w₁, c₁) ← processImage cvt pool f
    let (w₂, c₂) ← processSplit cvt pool rest
    Except.ok (w₁ ++ w₂, c₁ + c₂)

/-- One configured split of the source dataset: whether
`img_source_dir.exists()`, and the image files the extension glob
enumerated there. -/
structure SplitDir where
  present : Bool
  files : List SrcImageFile

/-- The outer loop `for subset in self.subsets`: a split whose source
image directory is missing is skipped (`continue`); otherwise its files
are processed and its count added to `stats["total"]`. -/
def processAll (cvt : Pix → Pix) (pool : List (Option Image)) :
    List SplitDir → Except String (List Written × Nat)
  | [] => Except.ok ([], 0)
  | s :: rest =>
    if s.present = false then processAll cvt pool rest
    else do
      let (w₁, c₁) ← processSplit cvt pool s.files
      let (w₂, c₂) ← processAll cvt pool rest
      Except.ok (w₁ ++ w₂, c₁ + c₂)

/-- A whole `DatasetSynthesizer` run: the constructor calls
`_load_backgrounds` (so a configuration error aborts before any split is
processed and before any file is written), then `process` walks the
splits; the final report prints exactly when `process` returns. -/
def run (cvt : Pix → Pix) (bg : BgDir) (splits : List SplitDir) :
    Except String (List Written × Nat) :=
  match load_backgrounds bg with
  | Except.error e => Except.error e
  | Except.ok pool => processAll cvt pool splits

/-- `True` exactly when the run reaches the final report (nothing raised
out of the processing loops). -/
def reportPrinted (cvt : Pix → Pix) (bg : BgDir) (splits : List SplitDir) : Bool :=
  (run cvt bg splits).toOption.isSome

/-! ## `DatasetMerger.merge` (merge_dataset.py lines 23-72) -/

/-- One enumerated image file of the source dataset A, with its pixel/byte
content abstracted to a numeric identity, and its label-file content when
the matching label exists. -/
structure MergeFile where
  stem : String
  ext : String
  content : Nat
  label : Option Nat

/-- The source filename `img_path.name` of a merge source file. -/
def mergeSrcName (f : MergeFile) : String := f.stem ++ f.ext

/-- `new_filename = f"white_bg_{img_path.name}"` (merge_dataset.py line 52). -/
def mergedImageName (f : MergeFile) : String := "white_bg_" ++ mergeSrcName f

/-- `new_label_name = f"white_bg_{label_name}"` with
`label_name = img_path.stem + ".txt"` (merge_dataset.py lines 58, 62). -/
def mergedLabelName (f : MergeFile) : String := "white_bg_" ++ (f.stem ++ ".txt")

/-- A destination directory: `none` when the directory does not exist,
otherwise its files as (name, content) entries. -/
abbrev DstDir := Option (List (String × Nat))

/-- `shutil.copy2(src, dir / name)`: raises `FileNotFoundError` when the
destination directory does not exist; otherwise writes `content` under
`name`, silently replacing an existing entry of the same name and leaving
every other entry as it was. -/
def copy2 (dst : DstDir) (name : String) (content : Nat) :
    Except String (List (String × Nat)) :=
  match dst with
  | none => Except.error "FileNotFoundError: destination directory missing"
  | some entries => Except.ok ((name, content) :: entries.filter (fun e => e.1 != name))

/-- The per-file body of the merge loop (merge_dataset.py lines 49-65):
copy the image under its prefixed name, copy the label under its prefixed
name when the label exists, then `total_copied += 1`.  The destination
directories are threaded as state; an exception propagates (there is no
try/except). -/
def mergeLoop : List MergeFile → DstDir → DstDir →
    Except String (DstDir × DstDir × Nat)
  | [], dstImg, dstLbl => Except.ok (dstImg, dstLbl, 0)
  | f :: rest, dstImg, dstLbl => do
    let imgs ← copy2 dstImg (mergedImageName f) f.content
    match f.label with
    | none => do
      let (i, l, c) ← mergeLoop rest (some imgs) dstLbl
      Except.ok (i, l, c + 1)
    | some lc => do
      let lbls ← copy2 dstLbl (mergedLabelName f) lc
      let (i, l, c) ← mergeLoop rest (some imgs) (some lbls)
      Except.ok (i, l, c + 1)

/-- One split of a merge: whether A's `src_img_dir.exists()`, A's
enumerated files, and B's two destination directories.  The merger never
creates a directory: the destination directories only ever appear as
`copy2` targets. -/
structure MergeSplit where
  srcPresent : Bool
  files : List MergeFile
  dstImg : DstDir
  dstLbl : DstDir

/-- The body of `for subset in self.subsets` in `DatasetMerger.merge`: a
split missing from the source is skipped with a notice, leaving B
untouched; otherwise every enumerated file is copied. -/
def mergeSplit (s : MergeSplit) : Except String (DstDir × DstDir × Nat) :=
  if s.srcPresent = false then Except.ok (s.dstImg, s.dstLbl, 0)
  else mergeLoop s.files s.dstImg s.dstLbl

/-! ## Derived observations used to state the claims -/

/-- The background sampled for this file decoded: `random.choice` picked a
pool entry that `cv2.imread` had read successfully. -/
def bgOk (pool : List (Option Image)) (f : SrcImageFile) : Bool :=
  match pool[f.bgChoice]? with
  | some (some _) => true
  | _ => false

/-- The loop body raises an uncaught exception on this file: the image
decoded (a corrupt file is skipped by the `None` check and can never
raise), and then either the sampled background entry is unusable, or the
image write raises, or the label copy raises while a label exists. -/
def fileRaises (pool : List (Option Image)) (f : SrcImageFile) : Bool :=
  f.decoded.isSome &&
    (!bgOk pool f || f.writeRaises || (f.copyRaises && f.label.isSome))

/-- The names of the image files among a list of written files. -/
def writtenImageNames (ws : List Written) : List String :=
  ws.filterMap fun w =>
    match w with
    | Written.image n _ => some n
    | Written.labelFile _ _ => none

/-- The names of the label files among a list of written files. -/
def writtenLabelNames (ws : List Written) : List String :=
  ws.filterMap fun w =>
    match w with
    | Written.image _ _ => none
    | Written.labelFile n _ => some n

/-- A filename that is not of the form `white_bg_<anything>`. -/
def NoWhiteBgTag (n : String) : Prop := ∀ q : String, n ≠ "white_bg_" ++ q

/-! ## Concrete fixtures used by witnesses and counterexamples -/

/-- A 1×1 test image. -/
def imgA : Image := ⟨1, 1, fun _ _ => ⟨5, 6, 7⟩⟩

/-- A background pool holding one decoded image. -/
def poolA : List (Option Image) := [some imgA]

/-- The identity map standing in for the BGR→HSV conversion in concrete
runs whose pixel values are irrelevant. -/
def idCvt : Pix → Pix := fun p => p

/-- A decodable, labelled source file whose whole pipeline succeeds. -/
def fileA : SrcImageFile := ⟨"a", ".jpg", some imgA, some [48, 32, 49], 0, false, false⟩

/-- A corrupt source file: `cv2.imread` returns `None`. -/
def fileCorrupt : SrcImageFile := ⟨"c", ".jpg", none, none, 0, false, false⟩

/-- A decodable, labelled source file whose label copy raises an I/O
error. -/
def fileCopyFail : SrcImageFile := ⟨"b", ".jpg", some imgA, some [48], 0, false, true⟩

/-- A decodable, unlabelled source file. -/
def fileNeedsBg : SrcImageFile := ⟨"a", ".jpg", some imgA, none, 0, false, false⟩

/-- A healthy background directory. -/
def bgA : BgDir := ⟨true, [some imgA]⟩

/-- A missing background directory. -/
def bgMissing : BgDir := ⟨false, []⟩

/-- A background directory whose single glob-matched file fails to
decode. -/
def bgUndecodable : BgDir := ⟨true, [none]⟩

/-- A dataset with one present split holding one file whose label copy
raises. -/
def splitsCopyFail : List SplitDir := [⟨true, [fileCopyFail]⟩]

/-- One merge source file named `a.jpg` with no label. -/
def mergeFileA : MergeFile := ⟨"a", ".jpg", 99, none⟩

/-- A merge split whose destination image directory already holds a file
named `white_bg_a.jpg`, the very name the merger derives for `a.jpg`. -/
def mergeSplitClash : MergeSplit :=
  ⟨true, [mergeFileA], some [("white_bg_a.jpg", 7)], some []⟩

/-- A merge split whose destination image directory does not exist. -/
def mergeSplitNoDir : MergeSplit := ⟨true, [mergeFileA], none, some []⟩

/-! ## Helper lemmas -/

/-- Saturating addition with a zero pixel on the left returns a valid
pixel unchanged. -/
lemma pixAdd_zero_left (p : Pix) (hp : p.Valid) : pixAdd ⟨0, 0, 0⟩ p = p := by
  obtain ⟨a, b, c⟩ := p
  simp only [Pix.Valid] at hp
  simp only [pixAdd, satAdd, Pix.mk.injEq]
  omega

/-- Saturating addition with a zero pixel on the right returns a valid
pixel unchanged. -/
lemma pixAdd_zero_right (p : Pix) (hp : p.Valid) : pixAdd p ⟨0, 0, 0⟩ = p := by
  obtain ⟨a, b, c⟩ := p
  simp only [Pix.Valid] at hp
  simp only [pixAdd, satAdd, Pix.mk.injEq]
  omega

/-- Bind on a successful `Except` computation continues with the value. -/
lemma ok_bind {β γ : Type} (a : β) (g : β → Except String γ) :
    ((Except.ok a : Except String β) >>= g) = g a := rfl

/-- Bind on a failed `Except` computation propagates the error. -/
lemma error_bind {β γ : Type} (e : String) (g : β → Except String γ) :
    ((Except.error e : Except String β) >>= g) = Except.error e := rfl

/-- A corrupt file is skipped by the `if original is None: continue`
check: nothing is written and the counter is untouched. -/
lemma processImage_skip (cvt : Pix → Pix) (pool : List (Option Image))
    (f : SrcImageFile) (h : f.decoded = none) :
    processImage cvt pool f = Except.ok ([], 0) := by
  simp [processImage, h]

/-- A decoded file whose loop body does not raise completes the pipeline
and contributes exactly 1 to the counter. -/
lemma processImage_ok_of_decoded (cvt : Pix → Pix) (pool : List (Option Image))
    (f : SrcImageFile) (orig : Image) (hd : f.decoded = some orig)
    (hok : fileRaises pool f = false) :
    ∃ w, processImage cvt pool f = Except.ok (w, 1) := by
  simp only [fileRaises, hd, Option.isSome_some, Bool.true_and, Bool.or_eq_false_iff,
    Bool.not_eq_false, Bool.and_eq_false_iff] at hok
  obtain ⟨⟨hbg, hwr⟩, hcp⟩ := hok
  simp only [processImage, hd]
  rcases hget : pool[f.bgChoice]? with _ | ob
  · simp [bgOk, hget] at hbg
  · rcases ob with _ | bg
    · simp [bgOk, hget] at hbg
    · rcases hl : f.label with _ | content
      · simp [hwr, hl]
      · rcases hcp with hcp | hcp
        · simp [hwr, hl, hcp]
        · rw [hl] at hcp; simp at hcp

/-- A file whose loop body raises makes the loop body return that
exception. -/
lemma processImage_error_of_raises (cvt : Pix → Pix) (pool : List (Option Image))
    (f : SrcImageFile) (h : fileRaises pool f = true) :
    ∃ e, processImage cvt pool f = Except.error e := by
  rcases hd : f.decoded with _ | orig
  · simp [fileRaises, hd] at h
  · simp only [fileRaises, hd, Option.isSome_some, Bool.true_and] at h
    simp only [processImage, hd]
    rcases hget : pool[f.bgChoice]? with _ | ob
    · exact ⟨_, rfl⟩
    · rcases ob with _ | bg
      · exact ⟨_, rfl⟩
      · simp only [bgOk, hget, Bool.not_true, Bool.false_or] at h
        rcases hwr : f.writeRaises with _ | _
        · rw [hwr] at h
          simp only [Bool.false_or] at h
          rcases hl : f.label with _ | content
          · rw [hl] at h; simp at h
          · rw [hl] at h
            simp only [Option.isSome_some, Bool.and_true] at h
            simp [hwr, hl, h]
        · simp [hwr]

/-- A file whose loop body does not raise yields `ok`, counting 1 when it
decoded and 0 when it was skipped as corrupt. -/
lemma processImage_count (cvt : Pix → Pix) (pool : List (Option Image))
    (f : SrcImageFile) (hok : fileRaises pool f = false) :
    ∃ w, processImage cvt pool f =
      Except.ok (w, if f.decoded.isSome then 1 else 0) := by
  rcases hd : f.decoded with _ | orig
  · exact ⟨[], by simpa using processImage_skip cvt pool f hd⟩
  · simpa using processImage_ok_of_decoded cvt pool f orig hd hok

/-- When no file of the split raises, the split loop completes and its
counter equals the number of files that decoded. -/
lemma processSplit_ok (cvt : Pix → Pix) (pool : List (Option Image))
    (files : List SrcImageFile)
    (h : ∀ f ∈ files, fileRaises pool f = false) :
    ∃ ws, processSplit cvt pool files =
      Except.ok (ws, (files.filter fun f => f.decoded.isSome).length) := by
  induction files with
  | nil => exact ⟨[], rfl⟩
  | cons f rest ih =>
    obtain ⟨w, hw⟩ := processImage_count cvt pool f (h f (by simp))
    obtain ⟨ws, hws⟩ := ih fun g hg => h g (by simp [hg])
    refine ⟨w ++ ws, ?_⟩
    simp only [processSplit, hw, hws, ok_bind, List.filter_cons]
    rcases hd : f.decoded.isSome with _ | _ <;> simp [hd, Nat.add_comm]

/-- If some file of the split raises, the split loop itself raises: the
exception propagates out of the loop. -/
lemma processSplit_error (cvt : Pix → Pix) (pool : List (Option Image))
    (files : List SrcImageFile)
    (h : ∃ f ∈ files, fileRaises pool f = true) :
    ∃ e, processSplit cvt pool files = Except.error e := by
  induction files with
  | nil => simp at h
  | cons f rest ih =>
    rcases hf : fileRaises pool f with _ | _
    · obtain ⟨g, hg, hgr⟩ := h
      cases hg with
      | head => rw [hf] at hgr; simp at hgr
      | tail _ hmem =>
        obtain ⟨w, hw⟩ := processImage_count cvt pool f hf
        obtain ⟨e, he⟩ := ih ⟨g, hmem, hgr⟩
        exact ⟨e, by simp [processSplit, hw, he, ok_bind, error_bind]⟩
    · obtain ⟨e, he⟩ := processImage_error_of_raises cvt pool f hf
      exact ⟨e, by simp [processSplit, he, error_bind]⟩

/-- When no processed split contains a raising file, the whole walk over
the splits completes. -/
lemma processAll_ok (cvt : Pix → Pix) (pool : List (Option Image))
    (splits : List SplitDir)
    (h : ∀ s ∈ splits, s.present = true → ∀ f ∈ s.files, fileRaises pool f = false) :
    ∃ r, processAll cvt pool splits = Except.ok r := by
  induction splits with
  | nil => exact ⟨([], 0), rfl⟩
  | cons s rest ih =>
    obtain ⟨r, hr⟩ := ih fun t ht => h t (by simp [ht])
    rcases hp : s.present with _ | _
    · exact ⟨r, by simp [processAll, hp, hr]⟩
    · obtain ⟨ws, hws⟩ := processSplit_ok cvt pool s.files (h s (by simp) hp)
      refine ⟨(ws ++ r.1, (List.filter (fun f => f.decoded.isSome) s.files).length + r.2), ?_⟩
      simp [processAll, hp, hws, hr, ok_bind]

/-- If any processed split contains a raising file, the whole walk raises:
nothing between the loop and the caller catches the exception. -/
lemma processAll_error (cvt : Pix → Pix) (pool : List (Option Image))
    (splits : List SplitDir)
    (h : ∃ s ∈ splits, s.present = true ∧ ∃ f ∈ s.files, fileRaises pool f = true) :
    ∃ e, processAll cvt pool splits = Except.error e := by
  induction splits with
  | nil => simp at h
  | cons s rest ih =>
    obtain ⟨t, ht, hpres, hfile⟩ := h
    cases ht with
    | head =>
      obtain ⟨e, he⟩ := processSplit_error cvt pool s.files hfile
      exact ⟨e, by simp [processAll, hpres, he, error_bind]⟩
    | tail _ hmem =>
      obtain ⟨e, he⟩ := ih ⟨t, hmem, hpres, hfile⟩
      rcases hp : s.present with _ | _
      · exact ⟨e, by simp [processAll, hp, he]⟩
      · rcases hsp : processSplit cvt pool s.files with e₂ | r
        · exact ⟨e₂, by simp [processAll, hp, hsp, error_bind]⟩
        · exact ⟨e, by simp [processAll, hp, hsp, he, ok_bind, error_bind]⟩

/-- A filename shorter than the 9-character tag `white_bg_` cannot be of
the form `white_bg_<anything>`. -/
lemma noTag_of_short (n : String) (h : n.length < 9) : NoWhiteBgTag n := by
  intro q hq
  have hlen : n.length = ("white_bg_" ++ q).length := by rw [hq]
  rw [String.length_append] at hlen
  have h9 : ("white_bg_" : String).length = 9 := rfl
  omega

/-- Unfolding the merge loop over a file with no label: the image is
copied into the (present) image directory and the loop continues; the
label directory is not touched. -/
lemma mergeLoop_cons_none (f : MergeFile) (rest : List MergeFile)
    (imgs : List (String × Nat)) (dLbl : DstDir) (hfl : f.label = none) :
    mergeLoop (f :: rest) (some imgs) dLbl =
      (mergeLoop rest (some ((mergedImageName f, f.content) ::
          imgs.filter (fun e => e.1 != mergedImageName f))) dLbl) >>=
        fun r => Except.ok (r.1, r.2.1, r.2.2 + 1) := by
  simp only [mergeLoop, copy2, hfl, ok_bind]

/-- Unfolding the merge loop over a file with a label, both destination
directories present: both copies happen and the loop continues. -/
lemma mergeLoop_cons_some (f : MergeFile) (rest : List MergeFile)
    (imgs lbls : List (String × Nat)) (lc : Nat) (hfl : f.label = some lc) :
    mergeLoop (f :: rest) (some imgs) (some lbls) =
      (mergeLoop rest
          (some ((mergedImageName f, f.content) ::
            imgs.filter (fun e => e.1 != mergedImageName f)))
          (some ((mergedLabelName f, lc) ::
            lbls.filter (fun e => e.1 != mergedLabelName f)))) >>=
        fun r => Except.ok (r.1, r.2.1, r.2.2 + 1) := by
  simp only [mergeLoop, copy2, hfl, ok_bind]

/-- The very first copy into an absent destination image directory
raises, aborting the merge loop. -/
lemma mergeLoop_imgdir_missing (f : MergeFile) (rest : List MergeFile)
    (dLbl : DstDir) :
    mergeLoop (f :: rest) none dLbl =
      Except.error "FileNotFoundError: destination directory missing" := by
  rcases hfl : f.label with _ | lc <;> simp [mergeLoop, copy2, hfl, error_bind]

/-- The label copy into an absent destination label directory raises,
aborting the merge loop. -/
lemma mergeLoop_lbldir_missing (f : MergeFile) (rest : List MergeFile)
    (imgs : List (String × Nat)) (lc : Nat) (hfl : f.label = some lc) :
    mergeLoop (f :: rest) (some imgs) none =
      Except.error "FileNotFoundError: destination directory missing" := by
  simp [mergeLoop, copy2, hfl, ok_bind, error_bind]

/-- The merge loop with both destination directories present always
completes, and every pre-existing destination entry whose name does not
bear the `white_bg_` tag survives unchanged (each copy only ever replaces
the entry carrying its own tagged name). -/
lemma mergeLoop_preserves (files : List MergeFile) (imgs lbls : List (String × Nat)) :
    ∃ i l c, mergeLoop files (some imgs) (some lbls) = Except.ok (some i, some l, c) ∧
      (∀ p ∈ imgs, NoWhiteBgTag p.1 → p ∈ i) ∧
      (∀ p ∈ lbls, NoWhiteBgTag p.1 → p ∈ l) := by
  induction files generalizing imgs lbls with
  | nil => exact ⟨imgs, lbls, 0, rfl, fun p hp _ => hp, fun p hp _ => hp⟩
  | cons f rest ih =>
    rcases hfl : f.label with _ | lc
    · obtain ⟨i, l, c, hml, hi, hl⟩ :=
        ih ((mergedImageName f, f.content) ::
          imgs.filter (fun e => e.1 != mergedImageName f)) lbls
      refine ⟨i, l, c + 1, ?_, ?_, hl⟩
      · rw [mergeLoop_cons_none f rest imgs (some lbls) hfl, hml, ok_bind]
      · intro p hp htag
        refine hi p (List.mem_cons_of_mem _ (List.mem_filter.2 ⟨hp, ?_⟩)) htag
        simp only [bne_iff_ne]
        exact htag (mergeSrcName f)
    · obtain ⟨i, l, c, hml, hi, hl⟩ :=
        ih ((mergedImageName f, f.content) ::
            imgs.filter (fun e => e.1 != mergedImageName f))
          ((mergedLabelName f, lc) ::
            lbls.filter (fun e => e.1 != mergedLabelName f))
      refine ⟨i, l, c + 1, ?_, ?_, ?_⟩
      · rw [mergeLoop_cons_some f rest imgs lbls lc hfl, hml, ok_bind]
      · intro p hp htag
        refine hi p (List.mem_cons_of_mem _ (List.mem_filter.2 ⟨hp, ?_⟩)) htag
        simp only [bne_iff_ne]
        exact htag (mergeSrcName f)
      · intro p hp htag
        refine hl p (List.mem_cons_of_mem _ (List.mem_filter.2 ⟨hp, ?_⟩)) htag
        simp only [bne_iff_ne]
        exact htag (f.stem ++ ".txt")

/-- When the merge loop completes, a destination directory that was
absent at the start is still absent at the end: the loop never creates a
directory (it can only have succeeded without touching the absent one). -/
lemma mergeLoop_ok_dirs (files : List MergeFile) (dImg dLbl i l : DstDir) (c : Nat)
    (h : mergeLoop files dImg dLbl = Except.ok (i, l, c)) :
    (dImg = none → i = none) ∧ (dLbl = none → l = none) := by
  induction files generalizing dImg dLbl i l c with
  | nil =>
    simp only [mergeLoop, Except.ok.injEq, Prod.mk.injEq] at h
    obtain ⟨hi, hl, -⟩ := h
    exact ⟨fun hd => by rw [← hi]; exact hd, fun hd => by rw [← hl]; exact hd⟩
  | cons f rest ih =>
    rcases dImg with _ | imgs
    · rw [mergeLoop_imgdir_missing] at h
      exact absurd h (by simp)
    · rcases hfl : f.label with _ | lc₂
      · rw [mergeLoop_cons_none f rest imgs dLbl hfl] at h
        cases hrec : mergeLoop rest
            (some ((mergedImageName f, f.content) ::
              imgs.filter (fun e => e.1 != mergedImageName f))) dLbl with
        | error e => rw [hrec, error_bind] at h; exact absurd h (by simp)
        | ok r =>
          rw [hrec, ok_bind] at h
          obtain ⟨i₂, l₂, c₂⟩ := r
          simp only [Except.ok.injEq, Prod.mk.injEq] at h
          obtain ⟨hi, hl, -⟩ := h
          have hIH := ih _ _ _ _ _ hrec
          refine ⟨fun hd => by simp at hd, fun hd => ?_⟩
          rw [← hl]
          exact hIH.2 hd
      · rcases dLbl with _ | lbls
        · rw [mergeLoop_lbldir_missing f rest imgs lc₂ hfl] at h
          exact absurd h (by simp)
        · exact ⟨fun hd => by simp at hd, fun hd => by simp at hd⟩

/-! ## Claim theorems -/

/-- **C1**: for a source image, a (binary) mask, and a background of
identical dimensions, the composite has exactly the source dimensions and
every pixel equals the source pixel where the mask marks foreground
(non-zero) and the background pixel where it marks background (zero);
the two cases are mutually exclusive and exhaustive, so every pixel is
assigned from exactly one of the two inputs. -/
theorem composite_correct (original bg_img : Image) (mask : Gray)
    (hbh : bg_img.h = original.h) (hbw : bg_img.w = original.w)
    (hov : original.Valid) (hbv : bg_img.Valid)
    (hbin : ∀ y < original.h, ∀ x < original.w,
      mask.pix y x = 0 ∨ mask.pix y x = 255) :
    (composite original mask bg_img).h = original.h ∧
    (composite original mask bg_img).w = original.w ∧
    ∀ y < original.h, ∀ x < original.w,
      (mask.pix y x ≠ 0 ∧
        (composite original mask bg_img).pix y x = original.pix y x) ∨
      (mask.pix y x = 0 ∧
        (composite original mask bg_img).pix y x = bg_img.pix y x) := by
  refine ⟨hbh, hbw, fun y hy x hx => ?_⟩
  have hop := hov y hy x hx
  have hbp := hbv y (hbh ▸ hy) x (hbw ▸ hx)
  rcases hbin y hy x hx with hm | hm
  · right
    refine ⟨hm, ?_⟩
    simp only [composite, cvAdd, bitwiseAndMasked, bitwiseNot, hm]
    norm_num
    exact pixAdd_zero_right _ hbp
  · left
    refine ⟨by omega, ?_⟩
    simp only [composite, cvAdd, bitwiseAndMasked, bitwiseNot, hm]
    norm_num
    exact pixAdd_zero_left _ hop

/-- Witness for C1 at a concrete 1×1 source, mask, and background. -/
theorem composite_correct_witness :
    (composite ⟨1, 1, fun _ _ => ⟨10, 20, 30⟩⟩ ⟨1, 1, fun _ _ => (255 : Nat)⟩
        ⟨1, 1, fun _ _ => ⟨1, 2, 3⟩⟩).h = 1 ∧
    (composite ⟨1, 1, fun _ _ => ⟨10, 20, 30⟩⟩ ⟨1, 1, fun _ _ => (255 : Nat)⟩
        ⟨1, 1, fun _ _ => ⟨1, 2, 3⟩⟩).w = 1 ∧
    ∀ y < 1, ∀ x < 1,
      ((255 : Nat) ≠ 0 ∧
        (composite ⟨1, 1, fun _ _ => ⟨10, 20, 30⟩⟩ ⟨1, 1, fun _ _ => (255 : Nat)⟩
          ⟨1, 1, fun _ _ => ⟨1, 2, 3⟩⟩).pix y x = ⟨10, 20, 30⟩) ∨
      ((255 : Nat) = 0 ∧
        (composite ⟨1, 1, fun _ _ => ⟨10, 20, 30⟩⟩ ⟨1, 1, fun _ _ => (255 : Nat)⟩
          ⟨1, 1, fun _ _ => ⟨1, 2, 3⟩⟩).pix y x = ⟨1, 2, 3⟩) :=
  composite_correct ⟨1, 1, fun _ _ => ⟨10, 20, 30⟩⟩ ⟨1, 1, fun _ _ => ⟨1, 2, 3⟩⟩
    ⟨1, 1, fun _ _ => (255 : Nat)⟩ rfl rfl (by decide) (by decide) (by decide)

/-- **C2**: over the HSV representation (whose 8-bit hue is at most 179
and saturation/value at most 255), the extractor classifies a pixel as
background (mask value 0) exactly when its saturation is at most 40 of
255 and its value is at least 210 of 255, the hue bounds [0,180] of the
range check being vacuous; all other pixels get mask value 255
(foreground, the logical complement), and every pixel is classified
foreground XOR background. -/
theorem remove_white_bg_spec (cvt : Pix → Pix) (img : Image)
    (hhsv : ∀ y < img.h, ∀ x < img.w, (cvt (img.pix y x)).c0 ≤ 179 ∧
      (cvt (img.pix y x)).c1 ≤ 255 ∧ (cvt (img.pix y x)).c2 ≤ 255) :
    (remove_white_bg cvt img).h = img.h ∧
    (remove_white_bg cvt img).w = img.w ∧
    ∀ y < img.h, ∀ x < img.w,
      ((remove_white_bg cvt img).pix y x = 0 ↔
        (cvt (img.pix y x)).c1 ≤ 40 ∧ 210 ≤ (cvt (img.pix y x)).c2) ∧
      Xor' ((remove_white_bg cvt img).pix y x = 255)
        ((remove_white_bg cvt img).pix y x = 0) := by
  refine ⟨rfl, rfl, fun y hy x hx => ?_⟩
  obtain ⟨hh, hs, hv⟩ := hhsv y hy x hx
  simp only [remove_white_bg, bitwiseNot, inRange, cvtColorBGR2HSV,
    lower_white, upper_white]
  by_cases hcase : (cvt (img.pix y x)).c1 ≤ 40 ∧ 210 ≤ (cvt (img.pix y x)).c2
  · rw [if_pos (by omega)]
    refine ⟨by simpa using hcase, ?_⟩
    right
    omega
  · rw [if_neg (by omega)]
    refine ⟨by simpa using hcase, ?_⟩
    left
    omega

/-- Witness for C2 at a concrete 1×1 image with the identity standing in
for the colour conversion: the pixel (0, 0, 255) is white, hence
background. -/
theorem remove_white_bg_spec_witness :
    (remove_white_bg (fun p => p) ⟨1, 1, fun _ _ => ⟨0, 0, 255⟩⟩).h = 1 ∧
    (remove_white_bg (fun p => p) ⟨1, 1, fun _ _ => ⟨0, 0, 255⟩⟩).w = 1 ∧
    ∀ y < 1, ∀ x < 1,
      ((remove_white_bg (fun p => p) ⟨1, 1, fun _ _ => ⟨0, 0, 255⟩⟩).pix y x = 0 ↔
        (0 : Nat) ≤ 40 ∧ (210 : Nat) ≤ 255) ∧
      Xor' ((remove_white_bg (fun p => p) ⟨1, 1, fun _ _ => ⟨0, 0, 255⟩⟩).pix y x = 255)
        ((remove_white_bg (fun p => p) ⟨1, 1, fun _ _ => ⟨0, 0, 255⟩⟩).pix y x = 0) :=
  remove_white_bg_spec (fun p => p) ⟨1, 1, fun _ _ => ⟨0, 0, 255⟩⟩ (by decide)

/-- **C3**: for every source image with a label file (stem plus `.txt`),
a completing pipeline writes a label file whose content is the source
label content byte for byte (quantified over arbitrary byte sequences:
nothing parses or rewrites it), under the name `stem ++ ".txt"`, whose
stem equals the stem of the written image's filename `stem ++ ext`. -/
theorem label_copied_verbatim (cvt : Pix → Pix) (pool : List (Option Image))
    (f : SrcImageFile) (orig : Image) (content : List Nat)
    (hd : f.decoded = some orig) (hl : f.label = some content)
    (hok : fileRaises pool f = false) :
    ∃ img, processImage cvt pool f =
      Except.ok ([Written.image (f.stem ++ f.ext) img,
        Written.labelFile (f.stem ++ ".txt") content], 1) := by
  simp only [fileRaises, hd, Option.isSome_some, Bool.true_and, Bool.or_eq_false_iff,
    Bool.not_eq_false, Bool.and_eq_false_iff] at hok
  obtain ⟨⟨hbg, hwr⟩, hcp⟩ := hok
  rcases hcp with hcp | hcp
  · simp only [processImage, hd]
    rcases hget : pool[f.bgChoice]? with _ | ob
    · simp [bgOk, hget] at hbg
    · rcases ob with _ | bg
      · simp [bgOk, hget] at hbg
      · simp [hwr, hl, hcp, srcName]
  · rw [hl] at hcp; simp at hcp

/-- Witness for C3: the concrete labelled file `a.jpg` with label bytes
[48, 32, 49] is written as `a.jpg` plus a label `a.txt` holding exactly
those bytes. -/
theorem label_copied_verbatim_witness :
    ∃ img, processImage idCvt poolA fileA =
      Except.ok ([Written.image "a.jpg" img,
        Written.labelFile "a.txt" [48, 32, 49]], 1) :=
  label_copied_verbatim idCvt poolA fileA imgA [48, 32, 49] rfl rfl rfl

/-- **C4**: a split holding N decodable, successfully processed source
images plus one corrupt (undecodable) file completes without aborting:
the corrupt file is skipped without incrementing the counter and the
split's final count is N, the number of images processed to
completion. -/
theorem corrupt_file_skipped (cvt : Pix → Pix) (pool : List (Option Image))
    (pre post : List SrcImageFile) (bad : SrcImageFile)
    (hbad : bad.decoded = none)
    (hgood : ∀ f ∈ pre ++ post, f.decoded.isSome = true ∧ fileRaises pool f = false) :
    ∃ ws, processSplit cvt pool (pre ++ bad :: post) =
      Except.ok (ws, pre.length + post.length) := by
  have hall : ∀ f ∈ pre ++ bad :: post, fileRaises pool f = false := by
    intro f hf
    rcases List.mem_append.1 hf with hf | hf
    · exact (hgood f (List.mem_append_left _ hf)).2
    · cases hf with
      | head => simp [fileRaises, hbad]
      | tail _ hmem => exact (hgood f (List.mem_append_right _ hmem)).2
  obtain ⟨ws, hws⟩ := processSplit_ok cvt pool _ hall
  have hpre : pre.filter (fun f => f.decoded.isSome) = pre :=
    List.filter_eq_self.mpr (fun a ha => (hgood a (List.mem_append_left _ ha)).1)
  have hpost : post.filter (fun f => f.decoded.isSome) = post :=
    List.filter_eq_self.mpr (fun a ha => (hgood a (List.mem_append_right _ ha)).1)
  refine ⟨ws, ?_⟩
  rw [hws]
  simp [List.filter_append, List.filter_cons, hbad, hpre, hpost]

/-- Witness for C4: one good image plus one corrupt file yields a
completed split whose count is 1. -/
theorem corrupt_file_skipped_witness :
    fileCorrupt.decoded = none ∧
    (∀ f ∈ [fileA] ++ [], f.decoded.isSome = true ∧ fileRaises poolA f = false) ∧
    ∃ ws, processSplit idCvt poolA ([fileA] ++ fileCorrupt :: []) =
      Except.ok (ws, 1) := by
  have hgood : ∀ f ∈ [fileA] ++ [], f.decoded.isSome = true ∧
      fileRaises poolA f = false := by
    intro f hf
    simp only [List.append_nil, List.mem_singleton] at hf
    subst hf
    exact ⟨rfl, rfl⟩
  exact ⟨rfl, hgood,
    corrupt_file_skipped idCvt poolA [fileA] [] fileCorrupt rfl hgood⟩

/-- **C5**: when the background directory does not exist or matches no
image file, the whole run is a fatal error, produced by the pool
construction itself: one fixed error value is returned for every
possible dataset, so the failure happens before any split is processed
and before any output file is written. -/
theorem config_error_fatal (bg : BgDir)
    (h : bg.dirExists = false ∨ bg.files = []) :
    ∃ e, ∀ (cvt : Pix → Pix) (splits : List SplitDir),
      run cvt bg splits = Except.error e := by
  rcases h with h | h
  · exact ⟨"ERROR: Background folder not found",
      fun cvt splits => by simp [run, load_backgrounds, h]⟩
  · rcases hd : bg.dirExists with _ | _
    · exact ⟨"ERROR: Background folder not found",
        fun cvt splits => by simp [run, load_backgrounds, hd]⟩
    · exact ⟨"ERROR: No images found",
        fun cvt splits => by simp [run, load_backgrounds, hd, h]⟩

/-- Witness for C5 at the concrete missing background directory. -/
theorem config_error_fatal_witness :
    (bgMissing.dirExists = false ∨ bgMissing.files = []) ∧
    ∃ e, ∀ (cvt : Pix → Pix) (splits : List SplitDir),
      run cvt bgMissing splits = Except.error e :=
  ⟨Or.inl rfl, config_error_fatal bgMissing (Or.inl rfl)⟩

/-- **C6 counterexample**: the synthesizer writes the output image of
`a.jpg` under the name `a.jpg` itself — `cv2.imwrite(str(img_out_dir /
img_path.name), ...)` reuses `img_path.name` unchanged — so the output
filename does NOT differ from the source filename and carries no
`white_bg_` tag, contradicting the claim. -/
theorem synth_keeps_source_name_cex :
    (processImage idCvt poolA fileA).toOption.map (fun r => writtenImageNames r.1) =
      some [srcName fileA] ∧
    srcName fileA = "a.jpg" := ⟨rfl, rfl⟩

/-- **C6 amended**: for every source image whose pipeline completes, the
synthesizer writes the output image under the source's own filename
(`img_path.name`, i.e. `stem ++ ext`) and the copied label (when one
exists) under `stem ++ ".txt"` — the same stem, no derived tag; it is
the separate destination directory, not a derived filename, that keeps
the output apart from the source. -/
theorem synth_output_names (cvt : Pix → Pix) (pool : List (Option Image))
    (f : SrcImageFile) (orig : Image)
    (hd : f.decoded = some orig) (hok : fileRaises pool f = false) :
    ∃ r, processImage cvt pool f = Except.ok r ∧
      writtenImageNames r.1 = [f.stem ++ f.ext] ∧
      writtenLabelNames r.1 = f.label.toList.map (fun _ => f.stem ++ ".txt") ∧
      r.2 = 1 := by
  simp only [fileRaises, hd, Option.isSome_some, Bool.true_and, Bool.or_eq_false_iff,
    Bool.not_eq_false, Bool.and_eq_false_iff] at hok
  obtain ⟨⟨hbg, hwr⟩, hcp⟩ := hok
  simp only [processImage, hd]
  rcases hget : pool[f.bgChoice]? with _ | ob
  · simp [bgOk, hget] at hbg
  · rcases ob with _ | bg
    · simp [bgOk, hget] at hbg
    · rcases hl : f.label with _ | content
      · exact ⟨([Written.image (srcName f)
            (cvAdd (bitwiseAndMasked (cvResize bg orig.w orig.h)
              (bitwiseNot (remove_white_bg cvt orig)))
              (bitwiseAndMasked orig (remove_white_bg cvt orig)))], 1),
          by simp [hwr, hl], by simp [writtenImageNames, srcName],
          by simp [writtenLabelNames, hl], rfl⟩
      · rcases hcp with hcp | hcp
        · exact ⟨([Written.image (srcName f)
              (cvAdd (bitwiseAndMasked (cvResize bg orig.w orig.h)
                (bitwiseNot (remove_white_bg cvt orig)))
                (bitwiseAndMasked orig (remove_white_bg cvt orig))),
              Written.labelFile (f.stem ++ ".txt") content], 1),
            by simp [hwr, hl, hcp], by simp [writtenImageNames, srcName],
            by simp [writtenLabelNames, hl], rfl⟩
        · rw [hl] at hcp; simp at hcp

/-- Witness for the amended C6 at the concrete labelled file `a.jpg`. -/
theorem synth_output_names_witness :
    ∃ r, processImage idCvt poolA fileA = Except.ok r ∧
      writtenImageNames r.1 = ["a.jpg"] ∧
      writtenLabelNames r.1 = ["a.txt"] ∧
      r.2 = 1 :=
  synth_output_names idCvt poolA fileA imgA rfl rfl

/-- **C7 counterexample**: with a healthy background pool and a single
decodable image whose label copy raises an I/O error, the exception
propagates out of the split loop (nothing in the loop catches it: only
decode failure is handled, by the `None` check) and the run aborts
before the final report, so the report does not print. -/
theorem report_not_printed_cex :
    load_backgrounds bgA = Except.ok poolA ∧
    fileCopyFail.decoded.isSome = true ∧
    run idCvt bgA splitsCopyFail = Except.error "shutil.copy raised" ∧
    reportPrinted idCvt bgA splitsCopyFail = false :=
  ⟨rfl, rfl, rfl, rfl⟩

/-- **C7 amended**: once the background pool loads, the final report
prints exactly when no per-image error is raised inside any processed
split: decode failures are skipped harmlessly (they never raise), but
any raised in-loop error — failed image write, failed label copy, or an
undecodable sampled background — propagates past the split loop and
prevents the report. -/
theorem report_iff_no_inloop_raise (cvt : Pix → Pix) (bg : BgDir)
    (splits : List SplitDir) (pool : List (Option Image))
    (hload : load_backgrounds bg = Except.ok pool) :
    reportPrinted cvt bg splits = true ↔
      ∀ s ∈ splits, s.present = true → ∀ f ∈ s.files, fileRaises pool f = false := by
  unfold reportPrinted run
  rw [hload]
  show (processAll cvt pool splits).toOption.isSome = true ↔ _
  constructor
  · intro h
    by_contra hc
    push_neg at hc
    obtain ⟨s, hs, hpres, f, hf, hraise⟩ := hc
    obtain ⟨e, he⟩ := processAll_error cvt pool splits
      ⟨s, hs, hpres, f, hf, by simpa using hraise⟩
    rw [he] at h
    exact Bool.noConfusion h
  · intro h
    obtain ⟨r, hr⟩ := processAll_ok cvt pool splits h
    rw [hr]
    rfl

/-- Witness for the amended C7: with the healthy pool and a dataset whose
single split holds one fully healthy file, the equivalence instantiates
and both sides hold. -/
theorem report_iff_no_inloop_raise_witness :
    load_backgrounds bgA = Except.ok poolA ∧
    (reportPrinted idCvt bgA [⟨true, [fileA]⟩] = true ↔
      ∀ s ∈ [(⟨true, [fileA]⟩ : SplitDir)], s.present = true →
        ∀ f ∈ s.files, fileRaises poolA f = false) :=
  ⟨rfl, report_iff_no_inloop_raise idCvt bgA [⟨true, [fileA]⟩] poolA rfl⟩

/-- **C8 counterexample**: `shutil.copy2` replaces an existing
destination file.  Merging the source file `a.jpg` into a destination
whose image directory already holds a file named `white_bg_a.jpg` (the
very name the prefixing rule derives) overwrites that pre-existing file:
its content changes from 7 to the source content 99, so the merge does
not leave all of B's pre-existing files unchanged. -/
theorem merge_overwrites_cex :
    mergeSplit mergeSplitClash =
      Except.ok (some [("white_bg_a.jpg", 99)], some [], 1) ∧
    mergeSplitClash.dstImg = some [("white_bg_a.jpg", 7)] := ⟨rfl, rfl⟩

/-- **C8 amended**: every copied file lands under the source filename
with the fixed deterministic tag `white_bg_` prepended; since a tagged
name never equals an un-tagged one, a pre-existing destination file
whose name does not itself begin with `white_bg_` — in particular any
file keeping a plain source filename shared between A and B — is never
overwritten: the merge completes with every such entry still present
unchanged.  (Only a pre-existing file already bearing the tag can be
replaced.) -/
theorem merge_preserves_untagged (files : List MergeFile)
    (imgs lbls : List (String × Nat))
    (himg : ∀ p ∈ imgs, NoWhiteBgTag p.1)
    (hlbl : ∀ p ∈ lbls, NoWhiteBgTag p.1) :
    (∀ f : MergeFile, mergedImageName f = "white_bg_" ++ mergeSrcName f ∧
      mergedImageName f ≠ mergeSrcName f) ∧
    ∃ i l c, mergeSplit ⟨true, files, some imgs, some lbls⟩ =
        Except.ok (some i, some l, c) ∧
      (∀ p ∈ imgs, p ∈ i) ∧ (∀ p ∈ lbls, p ∈ l) := by
  constructor
  · intro f
    refine ⟨rfl, fun heq => ?_⟩
    have hlen : (mergedImageName f).length = (mergeSrcName f).length := by rw [heq]
    rw [mergedImageName, String.length_append] at hlen
    have h9 : ("white_bg_" : String).length = 9 := rfl
    omega
  · obtain ⟨i, l, c, hml, hi, hl⟩ := mergeLoop_preserves files imgs lbls
    exact ⟨i, l, c, hml, fun p hp => hi p hp (himg p hp),
      fun p hp => hl p hp (hlbl p hp)⟩

/-- Witness for the amended C8: merging `a.jpg` into a destination whose
image directory holds an un-tagged `a.jpg` (the identical source
filename) completes and keeps that entry. -/
theorem merge_preserves_untagged_witness :
    (∀ f : MergeFile, mergedImageName f = "white_bg_" ++ mergeSrcName f ∧
      mergedImageName f ≠ mergeSrcName f) ∧
    ∃ i l c, mergeSplit ⟨true, [mergeFileA], some [("a.jpg", 1)], some []⟩ =
        Except.ok (some i, some l, c) ∧
      (∀ p ∈ [(("a.jpg", 1) : String × Nat)], p ∈ i) ∧
      (∀ p ∈ ([] : List (String × Nat)), p ∈ l) :=
  merge_preserves_untagged [mergeFileA] [("a.jpg", 1)] []
    (fun p hp => by
      rcases List.mem_singleton.1 hp with rfl
      exact noTag_of_short _ (by decide))
    (fun p hp => by simp at hp)

/-- **C9**: pool construction never verifies that the globbed background
files decode — it returns the raw `cv2.imread` results for any existing,
non-empty directory; a directory whose only match fails to decode passes
the emptiness check and yields the pool `[none]`, and a run that then
samples that entry raises (the `.copy()` on `None`) and aborts wholesale. -/
theorem backgrounds_never_validated :
    (∀ bg : BgDir, bg.dirExists = true → bg.files ≠ [] →
      load_backgrounds bg = Except.ok bg.files) ∧
    load_backgrounds bgUndecodable = Except.ok [none] ∧
    run idCvt bgUndecodable [⟨true, [fileNeedsBg]⟩] =
      Except.error "AttributeError: NoneType has no copy" := by
  refine ⟨?_, rfl, rfl⟩
  intro bg h1 h2
  simp [load_backgrounds, h1, h2]

/-- Witness for C9's universally quantified part at the healthy
background directory. -/
theorem backgrounds_never_validated_witness :
    load_backgrounds bgA = Except.ok bgA.files :=
  backgrounds_never_validated.1 bgA rfl (by simp [bgA])

/-- **C10**: the merger never creates destination directories — a merge
that completes leaves an absent destination directory absent — and when
a split is present in the source with at least one image while the
destination image directory is absent, the first copy raises
(`FileNotFoundError`) and the merge aborts instead of skipping the split
or creating the directory. -/
theorem merger_requires_existing_dst (s : MergeSplit) :
    (∀ i l c, mergeSplit s = Except.ok (i, l, c) →
      (s.dstImg = none → i = none) ∧ (s.dstLbl = none → l = none)) ∧
    (s.srcPresent = true → s.files ≠ [] → s.dstImg = none →
      ∃ e, mergeSplit s = Except.error e) := by
  constructor
  · intro i l c h
    unfold mergeSplit at h
    rcases hp : s.srcPresent with _ | _
    · rw [hp, if_pos rfl] at h
      simp only [Except.ok.injEq, Prod.mk.injEq] at h
      obtain ⟨hi, hl, -⟩ := h
      exact ⟨fun hd => by rw [← hi]; exact hd, fun hd => by rw [← hl]; exact hd⟩
    · rw [hp, if_neg (by simp)] at h
      exact mergeLoop_ok_dirs s.files s.dstImg s.dstLbl i l c h
  · intro hsrc hfiles hnone
    rcases hfs : s.files with _ | ⟨f, rest⟩
    · exact absurd hfs hfiles
    · refine ⟨"FileNotFoundError: destination directory missing", ?_⟩
      unfold mergeSplit
      rw [hsrc, if_neg (by simp), hfs, hnone]
      exact mergeLoop_imgdir_missing f rest s.dstLbl

/-- Witness for C10 at the concrete merge split whose destination image
directory is missing. -/
theorem merger_requires_existing_dst_witness :
    ∃ e, mergeSplit mergeSplitNoDir = Except.error e :=
  (merger_requires_existing_dst mergeSplitNoDir).2 rfl (by simp [mergeSplitNoDir]) rfl

end Mixology
